import Mathlib

/-!
Verification development for the azos-js weekly-scheduler core
(`src/packages/azos-ui/vcl/time/scheduler.js`).

JS `Date` values are modelled as integer minutes since the Unix epoch,
in a single fixed timezone (all the date arithmetic of the widget is
local-time civil arithmetic, so one fixed offset suffices).
1970-01-01 was a Thursday, hence the `+ 4` in `dow`.
For example, 2024-12-28 (a Saturday) is day number 20085, i.e. minute
20085 * 1440.
-/

namespace AzosSched

/-- Calendar day number of a timestamp (JS `setHours(0,0,0,0)` truncation target). -/
def dayOf (t : Int) : Int := t.fdiv 1440

/-- Truncate a timestamp to midnight (`d.setHours(0, 0, 0, 0)`). -/
def midnight (t : Int) : Int := 1440 * dayOf t

/-- JS `Date.prototype.getDay`: 0 = Sunday .. 6 = Saturday. -/
def dow (t : Int) : Int := (dayOf t + 4) % 7

/-- Caption of a scheduling item. The engine only ever asks `isFunction` /
`isNonEmptyString` of it, so a formatter function is represented by an
opaque tag. `absent` is JS `undefined` (the field missing from the spec
object), which the `SchedulingItem` constructor treats differently from
`null`. -/
inductive Caption where
  | absent
  | nul
  | str (s : String)
  | fnTag (n : Nat)
deriving DecidableEq, Repr

/-- `class SchedulingItem` (scheduler.js lines 704-741), after its
constructor has validated the inputs. The class-wide id seed is not
modelled: no claim mentions item ids, and items are compared by value. -/
structure SchedulingItem where
  day : Int
  startTimeMins : Int
  durationMins : Int
  caption : Caption := .nul
deriving DecidableEq, Repr

/-- `get endTimeMins() { return this.#startTimeMins + this.durationMins - 1; }` -/
def SchedulingItem.endTimeMins (it : SchedulingItem) : Int :=
  it.startTimeMins + it.durationMins - 1

/-- The argument object of `addItem` (scheduler.js line 529); optional
fields are `Option`s, `none` standing for JS `undefined`. -/
structure ItemSpec where
  day : Option Int := none
  startTimeMins : Option Int := none
  durationMins : Option Int := none
  caption : Caption := .absent
  data : Option Unit := none
deriving Repr

/-- The caption test of the `SchedulingItem` constructor:
`if (caption !== null && !types.isNonEmptyString(caption) && !types.isFunction(caption)) aver.isNonEmptyString(caption);`
The guarded `aver.isNonEmptyString` call is reached exactly when the caption
is neither `null`, a non-empty string, nor a function, and then it always
throws (its argument is not a non-empty string in that branch). -/
def captionOk : Caption → Bool
  | .nul => true
  | .str s => !s.isEmpty
  | .fnTag _ => true
  | .absent => false

/-- Modelled from the spec: the `azos/aver` module is not under src/ (only
its call sites are). Section 6 of the spec marks `data` as optional
(`data?: object`), so `aver.isObject(data)` is modelled as accepting an
absent payload. -/
def averIsObjectOkForData (_ : Option Unit) : Bool := true

/-- The `SchedulingItem` constructor (scheduler.js lines 733-740): caption
check, `aver.isDate(day)`, `aver.isNumber(startTimeMins)`,
`aver.isNumber(durationMins)`, `aver.isObject(data)`, in source order.
`aver.isNumber` only checks number-hood: no range is validated. -/
def mkSchedulingItem (s : ItemSpec) : Except String SchedulingItem :=
  if !captionOk s.caption then .error "caption is not null, a non-empty string, or a function"
  else match s.day with
  | none => .error "day is not a Date"
  | some d =>
    match s.startTimeMins with
    | none => .error "startTimeMins is not a number"
    | some stm =>
      match s.durationMins with
      | none => .error "durationMins is not a number"
      | some dur =>
        if !averIsObjectOkForData s.data then .error "data is not an object"
        else .ok { day := d, startTimeMins := stm, durationMins := dur, caption := s.caption }

/-- One element of `this.#schedulingItemsByDay`. -/
structure DayBucket where
  day : Int
  items : List SchedulingItem
deriving DecidableEq, Repr

/-- ECMAScript `Array.prototype.slice(start, end)` index clamping. -/
def jsSlice {α : Type} (l : List α) (s e : Int) : List α :=
  let len : Int := l.length
  let s' := if s < 0 then max (len + s) 0 else min s len
  let e' := if e < 0 then max (len + e) 0 else min e len
  (l.drop s'.toNat).take (e' - s').toNat

/-- State of one `WeeklyScheduler` instance (the fields the core logic
reads/writes; rendering-only caches are omitted). Field defaults are the
constructor's assignments (scheduler.js lines 409-421). `now` is the value
`new Date()` would produce, made explicit. The `...Explicit` options model
the lazily-cached private fields `#effectiveStartDate` / `#viewStartDate`:
`some` iff the property was explicitly set (the cached lazily *derived*
value always equals the pure derivation below, so only explicit sets need
state). -/
structure Sched where
  now : Int := 0
  viewStartDay : Int := 1
  viewNumDays : Int := 6
  timeViewRenderOffMins : Int := 60
  timeViewGranularityMins : Int := 30
  maxSelectedItems : Int := 2
  schedulingItemsByDay : List DayBucket := []
  effectiveStartDateExplicit : Option Int := none
  viewStartDateExplicit : Option Int := none
  viewStartTimeMins : Int := 540
  viewEndTimeMins : Int := 1020
  selectedItems : List SchedulingItem := []
deriving Repr

/-- `get effectiveStartDate()`: the first bucket's day, or "today" when the
store is empty (scheduler.js lines 240-247). -/
def Sched.effectiveStartDate (st : Sched) : Int :=
  match st.effectiveStartDateExplicit with
  | some d => d
  | none =>
    match st.schedulingItemsByDay.head? with
    | some b => b.day
    | none => st.now

/-- `calculateStartDate(date)` (scheduler.js lines 303-309):
truncate to midnight, then `dt.setDate(dt.getDate() - dt.getDay() + this.viewStartDay)`,
i.e. shift by `viewStartDay - getDay()` calendar days. Note: no mod 7. -/
def Sched.calculateStartDate (st : Sched) (date : Int) : Int :=
  let dt := midnight date
  dt + 1440 * (st.viewStartDay - dow dt)

/-- `get viewStartDate()` (scheduler.js lines 282-289): the explicitly set
value if any, else derived via `calculateStartDate(effectiveStartDate)`. -/
def Sched.viewStartDate (st : Sched) : Int :=
  st.viewStartDateExplicit.getD (st.calculateStartDate st.effectiveStartDate)

/-- `#calculateMinStartTime()` (scheduler.js lines 430-442).
The source computes
`startDateIndex = this.schedulingItemsByDay.findIndex(d => d.day === this.#viewStartDate)`;
`===` on a `Date` compares object identity, and at the only call site
(`#updateViewProperties`) the private `#viewStartDate` has just been reset
to `null`, so the predicate holds for no bucket and the index is always -1.
Each bucket contributes `items[0].startTimeMins` (the first item, not a
minimum over the bucket). Returns `null` when the running minimum stayed
`Infinity`. -/
def Sched.calculateMinStartTime (st : Sched) : Option Int :=
  let startDateIndex : Int := -1
  let viewDays := jsSlice st.schedulingItemsByDay startDateIndex (startDateIndex + st.viewNumDays)
  viewDays.foldl (fun acc b =>
    match b.items.head? with
    | none => acc
    | some it =>
      match acc with
      | none => some it.startTimeMins
      | some m => if it.startTimeMins < m then some it.startTimeMins else acc) none

/-- `#calculateMaxEndTime()` (scheduler.js lines 444-456).
`startDateIndex = 1 + [...this.schedulingItemsByDay].reverse().findIndex(d => d.day < this.viewStartDate)`
(an index into the reversed array, then used to slice the unreversed one);
each bucket contributes `items[items.length - 1].endTimeMins`. The running
maximum starts at 0 and `null` is returned when it stayed 0. The
`viewStart` argument is the value of the `viewStartDate` getter at the
call. -/
def Sched.calculateMaxEndTime (st : Sched) (viewStart : Int) : Option Int :=
  let startDateIndex : Int :=
    1 + (match st.schedulingItemsByDay.reverse.findIdx? (fun b => decide (b.day < viewStart)) with
         | some n => (n : Int)
         | none => -1)
  let viewDays := jsSlice st.schedulingItemsByDay startDateIndex (startDateIndex + st.viewNumDays)
  let maxTime := viewDays.foldl (fun acc b =>
    match b.items.getLast? with
    | none => acc
    | some it => if it.endTimeMins > acc then it.endTimeMins else acc) 0
  if maxTime == 0 then none else some maxTime

/-- `#updateViewProperties()` (scheduler.js lines 423-428): reset the two
lazy caches, then derive the time window. Inside `#calculateMaxEndTime`
the `viewStartDate` getter recomputes the derived value (the cache was
just nulled). -/
def Sched.updateViewProperties (st : Sched) : Sched :=
  let st1 := { st with effectiveStartDateExplicit := none, viewStartDateExplicit := none }
  let minT := st1.calculateMinStartTime
  let maxT := st1.calculateMaxEndTime st1.viewStartDate
  { st1 with viewStartTimeMins := minT.getD (9 * 60), viewEndTimeMins := maxT.getD (17 * 60) }

/-- A fresh `WeeklyScheduler` (constructor, scheduler.js lines 409-421). -/
def schedNew (now : Int) : Sched :=
  Sched.updateViewProperties { now := now }

/-- `found.items.push(item)` on the first bucket of the same calendar date. -/
def pushToBucket (it : SchedulingItem) : List DayBucket → List DayBucket
  | [] => []
  | b :: bs =>
    if dayOf b.day == dayOf it.day then { b with items := b.items ++ [it] } :: bs
    else b :: pushToBucket it bs

/-- The sort comparator `(a, b) => new Date(a.day) - new Date(b.day)`:
ascending by full timestamp. -/
def bucketLE (a b : DayBucket) : Bool := decide (a.day ≤ b.day)

/-- `addItem(item)` after `SchedulingItem` construction (scheduler.js lines
529-548): find the bucket with the same calendar date
(`toLocaleDateString()` equality); if none, push a fresh bucket and sort
the whole collection ascending by day; append the item to the bucket;
recompute the view window. JS `Array.prototype.sort` is stable; it is
modelled by the stable `List.mergeSort`. -/
def Sched.addItemCore (st : Sched) (it : SchedulingItem) : Sched :=
  let buckets :=
    match st.schedulingItemsByDay.find? (fun b => dayOf it.day == dayOf b.day) with
    | some _ => st.schedulingItemsByDay
    | none => (st.schedulingItemsByDay ++ [({ day := it.day, items := [] } : DayBucket)]).mergeSort bucketLE
  Sched.updateViewProperties { st with schedulingItemsByDay := pushToBucket it buckets }

/-- `addItem` including the `SchedulingItem` constructor. An exception in
the constructor surfaces before any mutation, so on error the state is
simply not produced (the caller keeps the unchanged store). -/
def Sched.addItem (st : Sched) (spec : ItemSpec) : Except String (Sched × SchedulingItem) := do
  let it ← mkSchedulingItem spec
  return (st.addItemCore it, it)

/-- `calculateTheDaysItems(date)` (scheduler.js lines 483-487):
`find(day => day.day.toDateString() === date.toDateString())`, i.e.
calendar-date equality, returning `found?.items`. -/
def Sched.calculateTheDaysItems (st : Sched) (date : Int) : Option (List SchedulingItem) :=
  (st.schedulingItemsByDay.find? (fun b => dayOf b.day == dayOf date)).map (·.items)

/-- The `while (currentMins < renderEndMins)` loop of `get timeSlotsView()`
(scheduler.js lines 366-384). The step `this.timeViewGranularityMins` is
written as the literal 30: the field is initialised to 30 and its setter
throws unconditionally, so it is 30 in every reachable state (which is
also what makes the loop terminate). -/
def slotsLoop (viewStartTM viewEndTM renderEndMins : Int) (currentMins : Int) :
    List (Int × Bool) :=
  if currentMins < renderEndMins then
    (currentMins, decide (viewStartTM ≤ currentMins ∧ currentMins < viewEndTM)) ::
      slotsLoop viewStartTM viewEndTM renderEndMins (currentMins + 30)
  else []
termination_by (renderEndMins - currentMins).toNat
decreasing_by omega

/-- `get timeSlotsView()`: the shared slot axis, pairs of
`(minuteOfDay, inView)`. -/
def Sched.timeSlotsView (st : Sched) : List (Int × Bool) :=
  slotsLoop st.viewStartTimeMins st.viewEndTimeMins
    (st.viewEndTimeMins + st.timeViewRenderOffMins)
    (st.viewStartTimeMins - st.timeViewRenderOffMins)

/-- One emitted cell of `renderTimeCells`: an item cell (with its computed
row span) or an empty slot cell (one row). -/
structure PlacementRec where
  item : Option SchedulingItem
  span : Int
  slotIndex : Int
deriving DecidableEq, Repr

/-- The `for (let i = 0; ...)` loop of `renderTimeCells(date)`
(scheduler.js lines 616-655), fuel-indexed because the source loop need
not terminate. On a found item, `rowSpan = Math.floor(durationMins / 30)`
(granularity is 30, see `slotsLoop`) and the source does
`i += rowSpan - 1` followed by the loop's own `i++`: a net step of
`rowSpan`, which is 0 (the loop re-reads the same slot forever) when
`durationMins < 30`, and negative for negative durations, in which case
`this.timeSlotsView[i]` is `undefined` and destructuring it throws
(modelled as `none`, like fuel exhaustion). `none` therefore means
"diverges or faults"; `some recs` is the terminating run's output. -/
def renderLoop (slots : List (Int × Bool)) (items : List SchedulingItem) :
    Nat → Int → Option (List PlacementRec)
  | 0, _ => none
  | fuel + 1, i =>
    if i < 0 then none
    else if h : i.toNat < slots.length then
      let slot := slots.get ⟨i.toNat, h⟩
      if slot.2 then
        match items.find? (fun it => it.startTimeMins == slot.1) with
        | some it =>
          let rowSpan := it.durationMins.fdiv 30
          match renderLoop slots items fuel (i + rowSpan) with
          | none => none
          | some rest => some (⟨some it, rowSpan, i⟩ :: rest)
        | none =>
          match renderLoop slots items fuel (i + 1) with
          | none => none
          | some rest => some (⟨none, 1, i⟩ :: rest)
      else
        match renderLoop slots items fuel (i + 1) with
        | none => none
        | some rest => some (⟨none, 1, i⟩ :: rest)
    else some []

/-- `renderTimeCells(date)`: run the placement loop for one day column over
the shared axis. `thisDayItems` may be `undefined` (`found?.items`), in
which case `thisDayItems?.find` finds nothing: modelled by `getD []`. -/
def Sched.renderTimeCells (st : Sched) (date : Int) (fuel : Nat) :
    Option (List PlacementRec) :=
  renderLoop st.timeSlotsView ((st.calculateTheDaysItems date).getD []) fuel 0

/-- `#handleSelectItem(item)` (scheduler.js lines 469-481), as a pure
function of the selection list. `indexOf` + `splice(idx, 1)` removes the
first occurrence; at the cap, `maxSelectedItems > 1` rejects silently,
otherwise the selection is cleared and the item pushed. -/
def handleSelectItem {α : Type} [DecidableEq α] (maxSelectedItems : Int)
    (selectedItems : List α) (item : α) : List α :=
  if item ∈ selectedItems then selectedItems.erase item
  else if (selectedItems.length : Int) ≥ maxSelectedItems then
    if maxSelectedItems > 1 then selectedItems
    else [item]
  else selectedItems ++ [item]

/-- `set timeViewGranularityMins(v)` (scheduler.js line 237): throws for
every value, 30 included. -/
def Sched.setTimeViewGranularityMins (_ : Sched) (_ : Int) : Except String Sched :=
  .error "Unimplemented--anything outside of 30 min causes infinite loop."

/-- `set viewStartDate(v)` (scheduler.js lines 291-301): truncate to
midnight, then `aver.isTrue(v.getDay() === this.viewStartDay)` (throws on
mismatch, leaving the window unchanged). -/
def Sched.setViewStartDate (st : Sched) (v : Int) : Except String Sched :=
  let v := midnight v
  if dow v == st.viewStartDay then .ok { st with viewStartDateExplicit := some v }
  else .error "Start Date should start on viewStartDay"

/-- `changeViewPage(count)` (scheduler.js lines 315-320): shift the current
`viewStartDate` by `7 * count` calendar days and assign it through the
checked setter. -/
def Sched.changeViewPage (st : Sched) (count : Int) : Except String Sched :=
  st.setViewStartDate (st.viewStartDate + 1440 * (7 * count))

/-- The week-alignment formula as the spec words it (section 4.2):
`viewStartDate = effectiveStartDate − ((dayOfWeek(effectiveStartDate) − viewStartDay + 7) mod 7)`
days, truncated to midnight. Stated from the spec for comparison with the
source-derived `Sched.calculateStartDate`. -/
def specViewStartDate (eff vsd : Int) : Int :=
  midnight eff - 1440 * ((dow eff - vsd + 7) % 7)

/-! Helper lemmas -/

theorem dayOf_eq_ediv (t : Int) : dayOf t = t / 1440 :=
  Int.fdiv_eq_ediv t (by norm_num)

theorem dow_eq (t : Int) : dow t = (t / 1440 + 4) % 7 := by
  rw [dow, dayOf_eq_ediv]

theorem dayOf_mul_add (k c : Int) : dayOf (1440 * k + 1440 * c) = k + c := by
  rw [dayOf_eq_ediv]; omega

theorem dayOf_mul (k : Int) : dayOf (1440 * k) = k := by
  rw [dayOf_eq_ediv]; omega

theorem midnight_mul (k : Int) : midnight (1440 * k) = 1440 * k := by
  rw [midnight, dayOf_mul]

theorem dow_mul_add7 (k c : Int) : dow (1440 * k + 1440 * (7 * c)) = dow (1440 * k) := by
  rw [dow, dow, dayOf_mul, dayOf_eq_ediv]
  have h : (1440 * k + 1440 * (7 * c)) / 1440 = k + 7 * c := by omega
  rw [h]
  omega

theorem emod7_shift (D V : Int) (h0 : 0 ≤ V) (h7 : V < 7) :
    (D + (V - (D + 4) % 7) + 4) % 7 = V := by
  omega

theorem emod7_spec_eq (D V : Int) (h0 : 0 ≤ V) (h7 : V < 7) (hle : V ≤ (D + 4) % 7) :
    1440 * (D + (V - (D + 4) % 7)) =
      1440 * D - 1440 * (((D + 4) % 7 - V + 7) % 7) := by
  omega

/-- A timestamp fixed by `midnight` is a multiple of 1440. -/
theorem exists_day_of_midnight_fix {v : Int} (h : midnight v = v) : ∃ k, v = 1440 * k := by
  rw [midnight, dayOf_eq_ediv] at h
  exact ⟨v / 1440, h.symm⟩

/-! Concrete dates and states used across claims.
2024-12-28 is a Saturday (day number 20085), 2024-12-29 a Sunday,
2024-12-23 the Monday starting that week. -/

def day20085 : Int := 1440 * 20085

/-- The scenario item of spec section 8: 2024-12-28, 9:00, 60 minutes. -/
def item3 : SchedulingItem := { day := day20085, startTimeMins := 540, durationMins := 60 }

/-- The store after adding `item3` to a fresh scheduler. -/
def st3 : Sched := (schedNew 0).addItemCore item3

/-- `st3` written out field by field (proved equal in `st3_eval`). -/
def st3lit : Sched :=
  { now := 0, viewStartDay := 1, viewNumDays := 6, timeViewRenderOffMins := 60,
    timeViewGranularityMins := 30, maxSelectedItems := 2,
    schedulingItemsByDay := [{ day := day20085, items := [item3] }],
    effectiveStartDateExplicit := none, viewStartDateExplicit := none,
    viewStartTimeMins := 540, viewEndTimeMins := 599, selectedItems := [] }

theorem st3_eval : st3 = st3lit := by
  simp +decide [st3, schedNew, item3, mkSchedulingItem, captionOk, averIsObjectOkForData,
    Sched.addItemCore, Sched.updateViewProperties, Sched.calculateMinStartTime,
    Sched.calculateMaxEndTime, Sched.viewStartDate, Sched.calculateStartDate,
    Sched.effectiveStartDate, jsSlice, pushToBucket, bucketLE, dayOf, midnight, dow,
    day20085, SchedulingItem.endTimeMins, st3lit, Sched.mk.injEq]

theorem st3_slots :
    st3.timeSlotsView =
      [(480, false), (510, false), (540, true), (570, true), (600, false), (630, false)] := by
  rw [st3_eval]
  simp +decide [Sched.timeSlotsView, st3lit, slotsLoop]

/-! C1 -/

/-- C1, counterexample. For effective start date 2024-12-29 (a Sunday) and the
default `viewStartDay = 1` (Monday), the derived `viewStartDate` is
2024-12-30 — one day AFTER the effective start date — while the spec's
mod-7 formula gives 2024-12-23. The claim's equation and its corollary
("never after effectiveStartDate") both fail. -/
theorem claim1_counterexample :
    let st : Sched := { schedNew 0 with effectiveStartDateExplicit := some (1440 * 20086) }
    st.viewStartDate = 1440 * 20087 ∧
    specViewStartDate st.effectiveStartDate st.viewStartDay = 1440 * 20080 ∧
    st.viewStartDate ≠ specViewStartDate st.effectiveStartDate st.viewStartDay ∧
    st.effectiveStartDate < st.viewStartDate := by
  refine ⟨?_, ?_, ?_, ?_⟩ <;>
    simp +decide [Sched.viewStartDate, Sched.calculateStartDate, Sched.effectiveStartDate,
      schedNew, Sched.updateViewProperties, Sched.calculateMinStartTime,
      Sched.calculateMaxEndTime, jsSlice, specViewStartDate, midnight, dow, dayOf]

/-- C1, amended. `calculateStartDate` shifts by `viewStartDay − dayOfWeek`
days with NO mod 7: the derived `viewStartDate` is
`effectiveStartDate − dayOfWeek(effectiveStartDate) + viewStartDay` days,
truncated to midnight. It agrees with the spec's formula exactly when
`viewStartDay ≤ dayOfWeek(effectiveStartDate)`, and lands strictly AFTER
`effectiveStartDate` when `dayOfWeek(effectiveStartDate) < viewStartDay`.
Its weekday always equals `viewStartDay`. -/
theorem claim1_amended (st : Sched) (eff : Int)
    (hv : st.viewStartDateExplicit = none)
    (he : st.effectiveStartDateExplicit = some eff)
    (h0 : 0 ≤ st.viewStartDay) (h7 : st.viewStartDay < 7) :
    st.viewStartDate = midnight eff + 1440 * (st.viewStartDay - dow eff) ∧
    midnight st.viewStartDate = st.viewStartDate ∧
    dow st.viewStartDate = st.viewStartDay ∧
    (st.viewStartDay ≤ dow eff →
      st.viewStartDate = specViewStartDate eff st.viewStartDay) ∧
    (dow eff < st.viewStartDay → eff < st.viewStartDate) := by
  have hD : midnight eff = 1440 * (eff / 1440) := by rw [midnight, dayOf_eq_ediv]
  have hw : dow eff = (eff / 1440 + 4) % 7 := dow_eq eff
  have hview : st.viewStartDate =
      1440 * (eff / 1440 + (st.viewStartDay - dow eff)) := by
    simp only [Sched.viewStartDate, hv, Option.getD_none, Sched.calculateStartDate,
      Sched.effectiveStartDate, he]
    rw [show dow (midnight eff) = dow eff from by rw [midnight, dow, dayOf_mul, dow], hD]
    ring
  have hquot : (1440 * (eff / 1440 + (st.viewStartDay - dow eff))) / 1440 =
      eff / 1440 + (st.viewStartDay - dow eff) := by omega
  refine ⟨?_, ?_, ?_, ?_, ?_⟩
  · rw [hview, hD]; ring
  · rw [hview, midnight, dayOf_eq_ediv, hquot]
  · rw [hview, dow_eq, hquot, hw]
    exact emod7_shift (eff / 1440) st.viewStartDay h0 h7
  · intro hle
    rw [hw] at hle
    rw [hview, specViewStartDate, hD, hw]
    exact emod7_spec_eq (eff / 1440) st.viewStartDay h0 h7 hle
  · intro hlt
    rw [hw] at hlt
    rw [hview]
    omega

/-- Witness for `claim1_amended` at the counterexample's Sunday input. -/
theorem claim1_witness :
    let st : Sched := { schedNew 0 with effectiveStartDateExplicit := some (1440 * 20086) }
    st.viewStartDate = midnight (1440 * 20086) + 1440 * (st.viewStartDay - dow (1440 * 20086)) ∧
    midnight st.viewStartDate = st.viewStartDate ∧
    dow st.viewStartDate = st.viewStartDay ∧
    (st.viewStartDay ≤ dow (1440 * 20086) →
      st.viewStartDate = specViewStartDate (1440 * 20086) st.viewStartDay) ∧
    (dow (1440 * 20086) < st.viewStartDay → (1440 * 20086 : Int) < st.viewStartDate) :=
  claim1_amended { schedNew 0 with effectiveStartDateExplicit := some (1440 * 20086) }
    (1440 * 20086) rfl rfl (by decide) (by decide)

/-! C6 -/

/-- C6, counterexample. Assigning the DEFAULT value 30 to
`timeViewGranularityMins` also fails: the setter throws unconditionally,
so the failure is not "exactly when the assigned value differs from the
default". -/
theorem claim6_counterexample :
    (schedNew 0).timeViewGranularityMins = 30 ∧
    (schedNew 0).setTimeViewGranularityMins 30 =
      .error "Unimplemented--anything outside of 30 min causes infinite loop." := by
  exact ⟨rfl, rfl⟩

/-- C6, amended. `timeViewGranularityMins` defaults to 30, and assigning it
fails fatally for EVERY value, the default 30 included; the stored
granularity remains 30 (the setter never writes the field). -/
theorem claim6_amended :
    (schedNew 0).timeViewGranularityMins = 30 ∧
    ∀ (st : Sched) (v : Int), ∃ e, st.setTimeViewGranularityMins v = .error e :=
  ⟨rfl, fun _ _ => ⟨_, rfl⟩⟩

/-! C7 -/

/-- C7. The selection-toggle laws of `#handleSelectItem`: removing an
already-selected item (first occurrence, later ranks shift down); silent
rejection at the cap when `maxSelectedItems > 1`; clear-then-add replace
semantics at the cap when `maxSelectedItems ≤ 1`; append below the cap;
and the concrete `maxSelectedItems = 2` scenario
A, B, C ↦ [A,B], then A ↦ [B], then C ↦ [B,C] (with A=0, B=1, C=2). -/
theorem claim7_selection (sel : List Nat) (maxSel : Int) (a : Nat) :
    (a ∈ sel → handleSelectItem maxSel sel a = sel.erase a) ∧
    (a ∉ sel → (sel.length : Int) ≥ maxSel → maxSel > 1 →
      handleSelectItem maxSel sel a = sel) ∧
    (a ∉ sel → (sel.length : Int) ≥ maxSel → maxSel ≤ 1 →
      handleSelectItem maxSel sel a = [a]) ∧
    (a ∉ sel → (sel.length : Int) < maxSel →
      handleSelectItem maxSel sel a = sel ++ [a]) ∧
    (handleSelectItem 2 (handleSelectItem 2 (handleSelectItem 2 ([] : List Nat) 0) 1) 2
        = [0, 1] ∧
      handleSelectItem 2 [0, 1] 0 = [1] ∧
      handleSelectItem 2 [1] 2 = [1, 2]) := by
  refine ⟨?_, ?_, ?_, ?_, by decide⟩
  · intro h; simp [handleSelectItem, h]
  · intro h hlen hmax
    simp only [handleSelectItem, if_neg h, if_pos hlen, if_pos hmax]
  · intro h hlen hmax
    simp only [handleSelectItem, if_neg h, if_pos hlen, if_neg (by omega : ¬maxSel > 1)]
  · intro h hlen
    simp only [handleSelectItem, if_neg h, if_neg (by omega : ¬(sel.length : Int) ≥ maxSel)]

/-- Witness for `claim7_selection`, exercising each hypothesis-guarded
branch at concrete inputs. -/
theorem claim7_witness :
    handleSelectItem 2 [5, 7] 5 = [7] ∧
    handleSelectItem 2 [5, 7] 9 = [5, 7] ∧
    handleSelectItem 1 [5] 9 = [9] ∧
    handleSelectItem 2 [5] 9 = [5, 9] :=
  ⟨(claim7_selection [5, 7] 2 5).1 (by decide),
   (claim7_selection [5, 7] 2 9).2.1 (by decide) (by decide) (by decide),
   (claim7_selection [5] 1 9).2.2.1 (by decide) (by decide) (by decide),
   (claim7_selection [5] 2 9).2.2.2.1 (by decide) (by decide)⟩

/-! C8 -/

/-- C8. Paging: from any state whose current `viewStartDate` is a midnight
with weekday `viewStartDay` (which every reachable `viewStartDate`
satisfies: the derived value is such, and the setter enforces it),
`changeViewPage(count)` succeeds and shifts `viewStartDate` by exactly
`7 × count` days; `changeViewPage(0)` leaves it unchanged; and
`changeViewPage(1)` followed by `changeViewPage(-1)` restores it. -/
theorem claim8_paging (st : Sched) (count : Int)
    (hmid : midnight st.viewStartDate = st.viewStartDate)
    (hdow : dow st.viewStartDate = st.viewStartDay) :
    (∃ st', st.changeViewPage count = .ok st' ∧
      st'.viewStartDate = st.viewStartDate + 1440 * (7 * count)) ∧
    (∃ st', st.changeViewPage 0 = .ok st' ∧ st'.viewStartDate = st.viewStartDate) ∧
    (∃ st1 st2, st.changeViewPage 1 = .ok st1 ∧ st1.changeViewPage (-1) = .ok st2 ∧
      st2.viewStartDate = st.viewStartDate) := by
  have key : ∀ (s : Sched) (c : Int), midnight s.viewStartDate = s.viewStartDate →
      dow s.viewStartDate = s.viewStartDay →
      s.changeViewPage c =
        .ok { s with viewStartDateExplicit := some (s.viewStartDate + 1440 * (7 * c)) } := by
    intro s c hm hd
    obtain ⟨k, hk⟩ := exists_day_of_midnight_fix hm
    have hmid' : midnight (s.viewStartDate + 1440 * (7 * c)) =
        s.viewStartDate + 1440 * (7 * c) := by
      rw [hk, midnight, dayOf_mul_add]
      ring
    have hdow' : dow (s.viewStartDate + 1440 * (7 * c)) = s.viewStartDay := by
      rw [hk, dow_mul_add7, ← hk, hd]
    rw [Sched.changeViewPage, Sched.setViewStartDate]
    simp [hmid', hdow']
  have h1 := key st count hmid hdow
  have h0 := key st 0 hmid hdow
  have hpage := key st 1 hmid hdow
  set st1 : Sched :=
    { st with viewStartDateExplicit := some (st.viewStartDate + 1440 * (7 * 1)) } with hst1
  have hst1v : st1.viewStartDate = st.viewStartDate + 1440 * (7 * 1) := by
    simp [hst1, Sched.viewStartDate]
  obtain ⟨k, hk⟩ := exists_day_of_midnight_fix hmid
  have hmid1 : midnight st1.viewStartDate = st1.viewStartDate := by
    rw [hst1v, hk, midnight, dayOf_mul_add]
    ring
  have hdow1 : dow st1.viewStartDate = st1.viewStartDay := by
    have : st1.viewStartDay = st.viewStartDay := by simp [hst1]
    rw [this, hst1v, hk, dow_mul_add7, ← hk, hdow]
  have h2 := key st1 (-1) hmid1 hdow1
  refine ⟨⟨_, h1, by simp [Sched.viewStartDate]⟩,
    ⟨_, h0, by simp [Sched.viewStartDate]⟩,
    ⟨st1, _, hpage, h2, ?_⟩⟩
  simp only [Sched.viewStartDate, Option.getD_some]
  ring

/-- Witness for `claim8_paging` on a fresh scheduler (its derived
`viewStartDate` is the Monday of the week of epoch day 0) with count 3. -/
theorem claim8_witness :
    (∃ st', (schedNew 0).changeViewPage 3 = .ok st' ∧
      st'.viewStartDate = (schedNew 0).viewStartDate + 1440 * (7 * 3)) ∧
    (∃ st', (schedNew 0).changeViewPage 0 = .ok st' ∧
      st'.viewStartDate = (schedNew 0).viewStartDate) ∧
    (∃ st1 st2, (schedNew 0).changeViewPage 1 = .ok st1 ∧
      st1.changeViewPage (-1) = .ok st2 ∧
      st2.viewStartDate = (schedNew 0).viewStartDate) :=
  claim8_paging (schedNew 0) 3 (by decide) (by decide)

/-! C2 -/

/-- First item added in the C2 failing input: 2024-12-28, 10:00, 30 min. -/
def itemA : SchedulingItem := { day := day20085, startTimeMins := 600, durationMins := 30 }

/-- Second item added in the C2 failing input: 2024-12-28, 9:00, 30 min. -/
def itemB : SchedulingItem := { day := day20085, startTimeMins := 540, durationMins := 30 }

/-- C2, evaluation of the code at the failing input. Both items sit on
2024-12-28, which lies inside `[viewStartDate, viewStartDate + viewNumDays)`
(the view starts Monday 2024-12-23), and the minimum `startTimeMins` over
the window is 540 (itemB). Yet the derived `viewStartTimeMins` is 600:
`#calculateMinStartTime` reads `items[0].startTimeMins` of each scanned
bucket (itemA, the first inserted) instead of a minimum, and its bucket
window is not the claimed date window at all (its `findIndex` compares
`Date` objects with `===` against a just-nulled cache, always yielding -1). -/
def stC2 : Sched := ((schedNew 0).addItemCore itemA).addItemCore itemB

theorem claim2_code_eval :
    stC2.schedulingItemsByDay = [{ day := day20085, items := [itemA, itemB] }] ∧
    stC2.viewStartDate = 1440 * 20080 ∧
    stC2.viewStartDate ≤ itemA.day ∧
    itemA.day < stC2.viewStartDate + 1440 * stC2.viewNumDays ∧
    itemB.startTimeMins = 540 ∧
    itemB.startTimeMins < itemA.startTimeMins ∧
    stC2.viewStartTimeMins = 600 := by
  refine ⟨?_, ?_, ?_, ?_, ?_, ?_, ?_⟩ <;>
    simp +decide [stC2, schedNew, itemA, itemB, Sched.addItemCore, Sched.updateViewProperties,
      Sched.calculateMinStartTime, Sched.calculateMaxEndTime, Sched.viewStartDate,
      Sched.calculateStartDate, Sched.effectiveStartDate, jsSlice, pushToBucket, bucketLE,
      dayOf, midnight, dow, day20085, SchedulingItem.endTimeMins]

/-! C3 -/

/-- The C3 scenario's `addItem` argument: day 2024-12-28, 9:00, 60 minutes,
`caption: null` (as every `addItem` caller in the repository passes), no
payload. -/
def spec3 : ItemSpec :=
  { day := some day20085, startTimeMins := some 540, durationMins := some 60, caption := .nul }

/-- C3, counterexample. The claim says the scenario yields
`viewEndTimeMins = 600`; the code yields 599: the derived end time is the
scanned item's `endTimeMins = startTimeMins + durationMins − 1 = 599`
(an inclusive last minute), not `startTimeMins + durationMins`. -/
theorem claim3_counterexample :
    st3.viewEndTimeMins = 599 ∧ st3.viewEndTimeMins ≠ 600 := by
  rw [st3_eval]
  exact ⟨rfl, by decide⟩

/-- C3, amended. The scenario `addItem({day: 2024-12-28, startTimeMins: 540,
durationMins: 60})` (caption `null`) on a fresh store succeeds and yields
`viewStartTimeMins = 540` and `viewEndTimeMins = 599` (not 600: the scan
uses the inclusive `endTimeMins = 540 + 60 − 1`), and the placement pass
for that day emits exactly one item-bearing placement record, with
`span = 2` (at slot index 2, minute 540), the remaining records being
empty slots. -/
theorem claim3_amended :
    (schedNew 0).addItem spec3 = .ok (st3, item3) ∧
    st3.viewStartTimeMins = 540 ∧
    st3.viewEndTimeMins = 599 ∧
    st3.renderTimeCells day20085 20 =
      some [{ item := none, span := 1, slotIndex := 0 },
            { item := none, span := 1, slotIndex := 1 },
            { item := some item3, span := 2, slotIndex := 2 },
            { item := none, span := 1, slotIndex := 4 },
            { item := none, span := 1, slotIndex := 5 }] ∧
    (List.filter (fun r => r.item.isSome)
        [({ item := none, span := 1, slotIndex := 0 } : PlacementRec),
         { item := none, span := 1, slotIndex := 1 },
         { item := some item3, span := 2, slotIndex := 2 },
         { item := none, span := 1, slotIndex := 4 },
         { item := none, span := 1, slotIndex := 5 }] =
      [{ item := some item3, span := 2, slotIndex := 2 }]) := by
  refine ⟨?_, ?_, ?_, ?_, by decide⟩
  · simp [Sched.addItem, spec3, mkSchedulingItem, captionOk, averIsObjectOkForData, st3,
      item3, day20085]
  · rw [st3_eval]; rfl
  · rw [st3_eval]; rfl
  · rw [Sched.renderTimeCells, st3_slots, st3_eval]
    decide

/-! C5 -/

/-- A spec with `durationMins = 0` (and a valid day and start time). -/
def spec5 : ItemSpec :=
  { day := some day20085, startTimeMins := some 540, durationMins := some 0, caption := .nul }

/-- The item the code constructs from `spec5`. -/
def item5 : SchedulingItem := { day := day20085, startTimeMins := 540, durationMins := 0 }

/-- C5, counterexample. `addItem` ACCEPTS a spec with `durationMins = 0`
(the constructor's `aver.isNumber` checks number-hood only, no ranges) and
the item lands in the store, contradicting "rejects every spec with
durationMins ≤ 0". -/
theorem claim5_counterexample :
    (schedNew 0).addItem spec5 = .ok ((schedNew 0).addItemCore item5, item5) ∧
    ((schedNew 0).addItemCore item5).schedulingItemsByDay =
      [{ day := day20085, items := [item5] }] ∧
    item5.durationMins ≤ 0 := by
  refine ⟨?_, ?_, by decide⟩
  · simp [Sched.addItem, spec5, mkSchedulingItem, captionOk, averIsObjectOkForData, item5,
      day20085]
  · simp +decide [schedNew, item5, Sched.addItemCore, Sched.updateViewProperties,
      Sched.calculateMinStartTime, Sched.calculateMaxEndTime, Sched.viewStartDate,
      Sched.calculateStartDate, Sched.effectiveStartDate, jsSlice, pushToBucket, bucketLE,
      dayOf, midnight, dow, day20085, SchedulingItem.endTimeMins]

/-- C5, amended. `addItem` rejects a spec with a missing `day` (and, more
generally, surfaces every constructor validation error synchronously, with
the store left untouched — the error is raised before any mutation); but
it performs NO range validation: whenever `day`, `startTimeMins` and
`durationMins` are present and the caption passes (null, non-empty string,
or function), the spec is accepted and the item added, including
`durationMins ≤ 0` and `startTimeMins` outside `[0, 1440)`. -/
theorem claim5_amended (st : Sched) (spec : ItemSpec) :
    (spec.day = none → ∃ e, st.addItem spec = .error e) ∧
    (∀ e, mkSchedulingItem spec = .error e → st.addItem spec = .error e) ∧
    (∀ d stm dur, spec.day = some d → spec.startTimeMins = some stm →
      spec.durationMins = some dur → captionOk spec.caption = true →
      st.addItem spec =
        .ok (st.addItemCore { day := d, startTimeMins := stm, durationMins := dur,
                              caption := spec.caption },
             { day := d, startTimeMins := stm, durationMins := dur,
               caption := spec.caption })) := by
  refine ⟨?_, ?_, ?_⟩
  · intro hday
    rw [Sched.addItem, mkSchedulingItem, hday]
    cases hc : captionOk spec.caption <;> simp [hc]
  · intro e he
    rw [Sched.addItem, he]
    rfl
  · intro d stm dur hd hs hdur hc
    rw [Sched.addItem, mkSchedulingItem, hd, hs, hdur, hc]
    simp [averIsObjectOkForData]

/-- Witness for `claim5_amended`: a missing day is rejected, while a spec
with `durationMins = -5` and `startTimeMins = 2000` (both outside the
claimed valid ranges) is accepted. -/
theorem claim5_witness :
    (∃ e, (schedNew 0).addItem { caption := .nul } = .error e) ∧
    (schedNew 0).addItem
        { day := some day20085, startTimeMins := some 2000, durationMins := some (-5),
          caption := .nul } =
      .ok ((schedNew 0).addItemCore
             { day := day20085, startTimeMins := 2000, durationMins := -5, caption := .nul },
           { day := day20085, startTimeMins := 2000, durationMins := -5, caption := .nul }) :=
  ⟨(claim5_amended (schedNew 0) { caption := .nul }).1 rfl,
   (claim5_amended (schedNew 0) _).2.2 day20085 2000 (-5) rfl rfl rfl rfl⟩

/-! C4 — `beginChanges` / `endChanges`.
The showcase caller (`#loadSchedulingItems`) wraps bulk loads in
`beginChanges(); try { ... addItem ... } finally { endChanges(); }`, but no
implementation of the two methods exists under src/ — only this call site.
The transaction store below is therefore modelled from the spec
(sections 4.1 and 5). -/

/-- Modelled from the spec: the ItemStore transaction state — a depth
counter for the reentrant `beginChanges`/`endChanges` bracket, the item
list, the derived-window snapshot (`windowItems`, recomputed from `items`
on each flush), and a flush counter used to state "flushes exactly once". -/
structure TxStore where
  depth : Nat := 0
  items : List SchedulingItem := []
  windowItems : List SchedulingItem := []
  flushCount : Nat := 0
deriving DecidableEq, Repr

/-- Modelled from the spec: a flush recomputes the derived window from the
current items. -/
def txFlush (s : TxStore) : TxStore :=
  { s with windowItems := s.items, flushCount := s.flushCount + 1 }

/-- Modelled from the spec: `beginChanges()` increments the depth counter. -/
def txBeginChanges (s : TxStore) : TxStore :=
  { s with depth := s.depth + 1 }

/-- Modelled from the spec: `endChanges()` decrements the depth counter and
flushes exactly when the outermost bracket exits (depth reaches 0). -/
def txEndChanges (s : TxStore) : TxStore :=
  let s' := { s with depth := s.depth - 1 }
  if s'.depth = 0 then txFlush s' else s'

/-- Modelled from the spec: `addItem` defers cache invalidation and window
recomputation while a bracket is open, and recomputes immediately outside
any bracket. -/
def txAddItem (it : SchedulingItem) (s : TxStore) : TxStore :=
  let s' := { s with items := s.items ++ [it] }
  if s'.depth = 0 then txFlush s' else s'

/-- Modelled from the spec: the caller-side bracket
`beginChanges(); try { body } finally { endChanges(); }`. The body either
returns a state or throws carrying the state as mutated so far;
`endChanges` runs on both exit paths. -/
def txBracket {E : Type} (body : TxStore → Except (E × TxStore) TxStore)
    (s : TxStore) : Except (E × TxStore) TxStore :=
  match body (txBeginChanges s) with
  | .ok s' => .ok (txEndChanges s')
  | .error (e, s') => .error (e, txEndChanges s')

/-- C4 (spec-modelled: `beginChanges`/`endChanges` are absent from src/,
only their call sites exist). The bracket is a reentrant transaction:
`beginChanges` increments the depth and never flushes; an inner
`endChanges` (depth ≥ 2 before the call) only decrements; the outermost
`endChanges` (depth = 1) flushes exactly once, recomputing the window from
the items; `addItem` inside any bracket defers (no flush, window
untouched) while `addItem` outside any bracket recomputes immediately; and
a bracket whose body keeps the depth at its entry value and does not flush
performs exactly one flush at the outermost exit, on the normal AND the
thrown-error exit path. -/
theorem claim4_transaction {E : Type} (s : TxStore) (it : SchedulingItem)
    (body : TxStore → Except (E × TxStore) TxStore) :
    ((txBeginChanges s).depth = s.depth + 1 ∧
      (txBeginChanges s).flushCount = s.flushCount ∧
      (txBeginChanges s).windowItems = s.windowItems) ∧
    (2 ≤ s.depth →
      (txEndChanges s).depth = s.depth - 1 ∧
      (txEndChanges s).flushCount = s.flushCount ∧
      (txEndChanges s).windowItems = s.windowItems) ∧
    (s.depth = 1 →
      (txEndChanges s).depth = 0 ∧
      (txEndChanges s).flushCount = s.flushCount + 1 ∧
      (txEndChanges s).windowItems = s.items) ∧
    (1 ≤ s.depth →
      (txAddItem it s).flushCount = s.flushCount ∧
      (txAddItem it s).windowItems = s.windowItems ∧
      (txAddItem it s).items = s.items ++ [it]) ∧
    (s.depth = 0 →
      (txAddItem it s).flushCount = s.flushCount + 1 ∧
      (txAddItem it s).windowItems = s.items ++ [it]) ∧
    (s.depth = 0 →
      (∀ t, body (txBeginChanges s) = .ok t →
        t.depth = 1 ∧ t.flushCount = s.flushCount) →
      (∀ e t, body (txBeginChanges s) = .error (e, t) →
        t.depth = 1 ∧ t.flushCount = s.flushCount) →
      (∀ t, txBracket body s = .ok t → t.depth = 0 ∧ t.flushCount = s.flushCount + 1) ∧
      (∀ e t, txBracket body s = .error (e, t) →
        t.depth = 0 ∧ t.flushCount = s.flushCount + 1)) := by
  refine ⟨⟨rfl, rfl, rfl⟩, ?_, ?_, ?_, ?_, ?_⟩
  · intro h2
    have hne : ¬ s.depth - 1 = 0 := by omega
    simp [txEndChanges, hne]
  · intro h1
    simp [txEndChanges, txFlush, h1]
  · intro h1
    have hne : ¬ s.depth = 0 := by omega
    simp [txAddItem, hne]
  · intro h0
    simp [txAddItem, txFlush, h0]
  · intro h0 hok herr
    constructor
    · intro t ht
      cases hbody : body (txBeginChanges s) with
      | ok s' =>
        obtain ⟨hd, hf⟩ := hok s' hbody
        rw [txBracket, hbody] at ht
        injection ht with ht
        subst ht
        simp [txEndChanges, txFlush, hd, hf]
      | error p =>
        rw [txBracket, hbody] at ht
        exact absurd ht (by simp)
    · intro e t ht
      cases hbody : body (txBeginChanges s) with
      | ok s' =>
        rw [txBracket, hbody] at ht
        exact absurd ht (by simp)
      | error p =>
        obtain ⟨e', s'⟩ := p
        obtain ⟨hd, hf⟩ := herr e' s' hbody
        rw [txBracket, hbody] at ht
        injection ht with ht
        obtain ⟨he, htt⟩ := Prod.mk.inj ht
        subst htt
        simp [txEndChanges, txFlush, hd, hf]

/-- Witness for `claim4_transaction`: each hypothesis-guarded part applied
at concrete stores (depth 2, depth 1, depth 0) and, for the bracket law, a
body that adds one item inside the bracket: exactly one flush happens, at
the outermost exit. -/
theorem claim4_witness :
    ((txEndChanges { depth := 2, items := [item3] }).flushCount = 0 ∧
      (txEndChanges { depth := 2, items := [item3] }).windowItems = []) ∧
    ((txEndChanges { depth := 1, items := [item3] }).flushCount = 0 + 1 ∧
      (txEndChanges { depth := 1, items := [item3] }).windowItems = [item3]) ∧
    (txAddItem item3 { depth := 1 }).flushCount = 0 ∧
    (txAddItem item3 ({} : TxStore)).flushCount = 0 + 1 ∧
    (∀ t, txBracket (E := Unit) (fun u => .ok (txAddItem item3 u)) {} = .ok t →
      t.depth = 0 ∧ t.flushCount = 0 + 1) :=
  ⟨⟨((claim4_transaction { depth := 2, items := [item3] } item3
        (E := Unit) Except.ok).2.1 (by decide)).2.1,
    ((claim4_transaction { depth := 2, items := [item3] } item3
        (E := Unit) Except.ok).2.1 (by decide)).2.2⟩,
   ⟨((claim4_transaction { depth := 1, items := [item3] } item3
        (E := Unit) Except.ok).2.2.1 rfl).2.1,
    ((claim4_transaction { depth := 1, items := [item3] } item3
        (E := Unit) Except.ok).2.2.1 rfl).2.2⟩,
   ((claim4_transaction { depth := 1 } item3 (E := Unit) Except.ok).2.2.2.1
      (by decide)).1,
   ((claim4_transaction ({} : TxStore) item3 (E := Unit) Except.ok).2.2.2.2.1 rfl).1,
   ((claim4_transaction ({} : TxStore) item3
        (fun u => .ok (txAddItem item3 u))).2.2.2.2.2 rfl
      (fun t ht => by injection ht with h; subst h; exact ⟨rfl, rfl⟩)
      (fun e t ht => Except.noConfusion ht)).1⟩

/-! C10 — termination of the placement pass. -/

theorem renderLoop_done (slots : List (Int × Bool)) (items : List SchedulingItem)
    (fuel : Nat) (i : Int) (h0 : 0 ≤ i) (hge : slots.length ≤ i.toNat) :
    renderLoop slots items (fuel + 1) i = some [] := by
  simp only [renderLoop]
  rw [if_neg (by omega), dif_neg (by omega)]

theorem renderLoop_out_of_view (slots : List (Int × Bool)) (items : List SchedulingItem)
    (fuel : Nat) (i : Int) (h0 : 0 ≤ i) (h : i.toNat < slots.length)
    (hv : (slots.get ⟨i.toNat, h⟩).2 = false) :
    renderLoop slots items (fuel + 1) i =
      (renderLoop slots items fuel (i + 1)).map
        (fun rest => { item := none, span := 1, slotIndex := i } :: rest) := by
  simp only [renderLoop]
  rw [if_neg (by omega), dif_pos h, hv]
  simp only [Bool.false_eq_true, if_false]
  cases renderLoop slots items fuel (i + 1) <;> rfl

theorem renderLoop_no_item (slots : List (Int × Bool)) (items : List SchedulingItem)
    (fuel : Nat) (i : Int) (h0 : 0 ≤ i) (h : i.toNat < slots.length)
    (hv : (slots.get ⟨i.toNat, h⟩).2 = true)
    (hf : items.find? (fun it => it.startTimeMins == (slots.get ⟨i.toNat, h⟩).1) = none) :
    renderLoop slots items (fuel + 1) i =
      (renderLoop slots items fuel (i + 1)).map
        (fun rest => { item := none, span := 1, slotIndex := i } :: rest) := by
  simp only [renderLoop]
  rw [if_neg (by omega), dif_pos h, hv]
  simp only [if_true, hf]
  cases renderLoop slots items fuel (i + 1) <;> rfl

theorem renderLoop_found (slots : List (Int × Bool)) (items : List SchedulingItem)
    (fuel : Nat) (i : Int) (h0 : 0 ≤ i) (h : i.toNat < slots.length)
    (hv : (slots.get ⟨i.toNat, h⟩).2 = true) (it : SchedulingItem)
    (hf : items.find? (fun x => x.startTimeMins == (slots.get ⟨i.toNat, h⟩).1) = some it) :
    renderLoop slots items (fuel + 1) i =
      (renderLoop slots items fuel (i + it.durationMins.fdiv 30)).map
        (fun rest =>
          { item := some it, span := it.durationMins.fdiv 30, slotIndex := i } :: rest) := by
  simp only [renderLoop]
  rw [if_neg (by omega), dif_pos h, hv]
  simp only [if_true, hf]
  cases renderLoop slots items fuel (i + it.durationMins.fdiv 30) <;> rfl

/-- Lower bound for the computed row span: a duration of at least one
granule spans at least one row. -/
theorem fdiv30_pos {d : Int} (hd : 30 ≤ d) : 1 ≤ d.fdiv 30 := by
  rw [Int.fdiv_eq_ediv _ (by norm_num)]
  omega

/-- Termination with coverage: if every item whose start time coincides
with an in-view slot minute lasts at least one granule (30 minutes), the
placement loop terminates from any nonnegative index with enough fuel, and
every remaining slot position is covered by an emitted record (its own
empty/item record, or the span of an earlier item record). -/
theorem renderLoop_total (slots : List (Int × Bool)) (items : List SchedulingItem)
    (hcond : ∀ it ∈ items, ∀ s ∈ slots, s.2 = true → it.startTimeMins = s.1 →
      30 ≤ it.durationMins) :
    ∀ (n : Nat) (i : Int), 0 ≤ i → slots.length ≤ i.toNat + n →
      ∃ recs, renderLoop slots items (n + 1) i = some recs ∧
        ∀ k : Nat, i.toNat ≤ k → k < slots.length →
          ∃ r ∈ recs, r.slotIndex ≤ (k : Int) ∧ (k : Int) < r.slotIndex + r.span := by
  intro n
  induction n with
  | zero =>
    intro i h0 hlen
    refine ⟨[], renderLoop_done slots items 0 i h0 (by omega), ?_⟩
    intro k hk1 hk2
    omega
  | succ m ih =>
    intro i h0 hlen
    by_cases hlt : i.toNat < slots.length
    · have hslotmem : slots.get ⟨i.toNat, hlt⟩ ∈ slots := slots.get_mem i.toNat hlt
      cases hv : (slots.get ⟨i.toNat, hlt⟩).2 with
      | false =>
        obtain ⟨recs, hrecs, hcov⟩ := ih (i + 1) (by omega) (by omega)
        refine ⟨{ item := none, span := 1, slotIndex := i } :: recs, ?_, ?_⟩
        · rw [renderLoop_out_of_view slots items (m + 1) i h0 hlt hv, hrecs]
          rfl
        · intro k hk1 hk2
          by_cases hki : k = i.toNat
          · exact ⟨_, List.mem_cons_self .., by subst hki; simp; omega⟩
          · obtain ⟨r, hr, hcr⟩ := hcov k (by omega) hk2
            exact ⟨r, List.mem_cons_of_mem _ hr, hcr⟩
      | true =>
        cases hf : items.find? (fun x => x.startTimeMins ==
            (slots.get ⟨i.toNat, hlt⟩).1) with
        | none =>
          obtain ⟨recs, hrecs, hcov⟩ := ih (i + 1) (by omega) (by omega)
          refine ⟨{ item := none, span := 1, slotIndex := i } :: recs, ?_, ?_⟩
          · rw [renderLoop_no_item slots items (m + 1) i h0 hlt hv hf, hrecs]
            rfl
          · intro k hk1 hk2
            by_cases hki : k = i.toNat
            · exact ⟨_, List.mem_cons_self .., by subst hki; simp; omega⟩
            · obtain ⟨r, hr, hcr⟩ := hcov k (by omega) hk2
              exact ⟨r, List.mem_cons_of_mem _ hr, hcr⟩
        | some it =>
          have hmem : it ∈ items := List.mem_of_find?_eq_some hf
          have hstart : it.startTimeMins = (slots.get ⟨i.toNat, hlt⟩).1 := by
            have := List.find?_some hf
            simpa using this
          have hdur : 30 ≤ it.durationMins :=
            hcond it hmem _ hslotmem hv hstart
          have hspan : 1 ≤ it.durationMins.fdiv 30 := fdiv30_pos hdur
          obtain ⟨recs, hrecs, hcov⟩ :=
            ih (i + it.durationMins.fdiv 30) (by omega) (by omega)
          refine ⟨{ item := some it, span := it.durationMins.fdiv 30, slotIndex := i }
              :: recs, ?_, ?_⟩
          · rw [renderLoop_found slots items (m + 1) i h0 hlt hv it hf, hrecs]
            rfl
          · intro k hk1 hk2
            by_cases hki : (k : Int) < i + it.durationMins.fdiv 30
            · refine ⟨_, List.mem_cons_self .., ?_⟩
              simp only
              omega
            · obtain ⟨r, hr, hcr⟩ := hcov k (by omega) hk2
              exact ⟨r, List.mem_cons_of_mem _ hr, hcr⟩
    · refine ⟨[], renderLoop_done slots items (m + 1) i h0 (by omega), ?_⟩
      intro k hk1 hk2
      omega

/-- The divergence item: 2024-12-28, 9:00, 20 minutes — a positive duration
strictly below the 30-minute granularity. -/
def item20 : SchedulingItem := { day := day20085, startTimeMins := 540, durationMins := 20 }

/-- The store after adding only `item20`. -/
def stBad : Sched := (schedNew 0).addItemCore item20

/-- `stBad` written out field by field. -/
def stBadlit : Sched :=
  { now := 0, viewStartDay := 1, viewNumDays := 6, timeViewRenderOffMins := 60,
    timeViewGranularityMins := 30, maxSelectedItems := 2,
    schedulingItemsByDay := [{ day := day20085, items := [item20] }],
    effectiveStartDateExplicit := none, viewStartDateExplicit := none,
    viewStartTimeMins := 540, viewEndTimeMins := 559, selectedItems := [] }

theorem stBad_eval : stBad = stBadlit := by
  simp +decide [stBad, schedNew, item20, Sched.addItemCore, Sched.updateViewProperties,
    Sched.calculateMinStartTime, Sched.calculateMaxEndTime, Sched.viewStartDate,
    Sched.calculateStartDate, Sched.effectiveStartDate, jsSlice, pushToBucket, bucketLE,
    dayOf, midnight, dow, day20085, SchedulingItem.endTimeMins, stBadlit, Sched.mk.injEq]

theorem stBad_slots :
    stBad.timeSlotsView =
      [(480, false), (510, false), (540, true), (570, false), (600, false)] := by
  rw [stBad_eval]
  simp +decide [Sched.timeSlotsView, stBadlit, slotsLoop]

theorem renderLoop_bad_two :
    ∀ fuel, renderLoop [(480, false), (510, false), (540, true), (570, false), (600, false)]
      [item20] fuel 2 = none := by
  intro fuel
  induction fuel with
  | zero => rfl
  | succ m ih =>
    have h2 : (2 : Int).toNat < 5 := by decide
    rw [renderLoop_found _ [item20] m 2 (by decide) (by simp) (by decide) item20
      (by decide)]
    have hspan : item20.durationMins.fdiv 30 = 0 := by decide
    rw [hspan]
    have h20 : (2 : Int) + 0 = 2 := by norm_num
    rw [h20, ih]
    rfl

theorem renderLoop_bad_start :
    ∀ fuel, renderLoop [(480, false), (510, false), (540, true), (570, false), (600, false)]
      [item20] fuel 0 = none := by
  have bad1 : ∀ fuel, renderLoop
      [(480, false), (510, false), (540, true), (570, false), (600, false)]
      [item20] fuel 1 = none := by
    intro fuel
    cases fuel with
    | zero => rfl
    | succ m =>
      rw [renderLoop_out_of_view _ [item20] m 1 (by decide) (by decide) (by decide)]
      have h11 : (1 : Int) + 1 = 2 := by norm_num
      rw [h11, renderLoop_bad_two m]
      rfl
  intro fuel
  cases fuel with
  | zero => rfl
  | succ m =>
    rw [renderLoop_out_of_view _ [item20] m 0 (by decide) (by decide) (by decide)]
    have h01 : (0 : Int) + 1 = 1 := by norm_num
    rw [h01, bad1 m]
    rfl

/-- C10. (i) Whenever every item whose `startTimeMins` coincides with an
in-view slot minute has `durationMins ≥ 30` (the granularity), the
placement pass terminates and covers every slot position with an emitted
record (its own empty/item record, or the span of the item record that
consumed it). (ii) `durationMins > 0` alone does not guarantee
termination: for the store holding only `item20` (duration 20 < 30), the
matched item's span floors to 0 — so the net index step `rowSpan − 1`
followed by `i++` re-reads the same slot — and the pass returns no result
at ANY fuel: it does not terminate. -/
theorem claim10_placement :
    (∀ (slots : List (Int × Bool)) (items : List SchedulingItem),
      (∀ it ∈ items, ∀ s ∈ slots, s.2 = true → it.startTimeMins = s.1 →
        30 ≤ it.durationMins) →
      ∃ fuel recs, renderLoop slots items fuel 0 = some recs ∧
        ∀ k : Nat, k < slots.length →
          ∃ r ∈ recs, r.slotIndex ≤ (k : Int) ∧ (k : Int) < r.slotIndex + r.span) ∧
    (0 < item20.durationMins ∧
      item20.durationMins < stBad.timeViewGranularityMins ∧
      item20.durationMins.fdiv 30 = 0 ∧
      stBad.timeSlotsView.get? 2 = some (540, true) ∧
      item20.startTimeMins = 540 ∧
      ∀ fuel, stBad.renderTimeCells day20085 fuel = none) := by
  constructor
  · intro slots items hcond
    obtain ⟨recs, hrecs, hcov⟩ :=
      renderLoop_total slots items hcond slots.length 0 le_rfl (by omega)
    exact ⟨slots.length + 1, recs, hrecs, fun k hk => hcov k (by omega) hk⟩
  · refine ⟨by decide, ?_, by decide, ?_, by decide, ?_⟩
    · rw [stBad_eval]; decide
    · rw [stBad_slots]; rfl
    · intro fuel
      rw [Sched.renderTimeCells, stBad_slots]
      have hitems : (stBad.calculateTheDaysItems day20085).getD [] = [item20] := by
        rw [stBad_eval]
        simp +decide [Sched.calculateTheDaysItems, stBadlit, dayOf, day20085]
      rw [hitems]
      exact renderLoop_bad_start fuel

/-- Witness for `claim10_placement`'s universally quantified part: a single
in-view slot at minute 540 and one matching 30-minute item. -/
theorem claim10_witness :
    ∃ fuel recs,
      renderLoop [((540 : Int), true)]
        [{ day := day20085, startTimeMins := 540, durationMins := 30 }] fuel 0 = some recs ∧
      ∀ k : Nat, k < [((540 : Int), true)].length →
        ∃ r ∈ recs, r.slotIndex ≤ (k : Int) ∧ (k : Int) < r.slotIndex + r.span :=
  claim10_placement.1 [((540 : Int), true)]
    [{ day := day20085, startTimeMins := 540, durationMins := 30 }]
    (by decide)

/-! C9 — bucket sortedness and lookup correctness. -/

/-- The bucket-list core of `calculateTheDaysItems`: find the bucket whose
calendar day number is `k` and return its items. -/
def lookupB (bs : List DayBucket) (k : Int) : Option (List SchedulingItem) :=
  (bs.find? (fun b => dayOf b.day == k)).map (fun b => b.items)

theorem calculateTheDaysItems_eq_lookupB (st : Sched) (date : Int) :
    st.calculateTheDaysItems date = lookupB st.schedulingItemsByDay (dayOf date) := rfl

theorem dayOf_mono {a b : Int} (h : a ≤ b) : dayOf a ≤ dayOf b := by
  rw [dayOf_eq_ediv, dayOf_eq_ediv]
  omega

theorem beq_int_symm (a b : Int) : (a == b) = (b == a) := by
  by_cases h : a = b
  · rw [h]
  · have h' : b ≠ a := fun hba => h hba.symm
    simp [h, h']

/-- `addItemCore` at the bucket level: the derived-window recomputation does
not touch the bucket collection. -/
theorem addItemCore_buckets (st : Sched) (it : SchedulingItem) :
    (st.addItemCore it).schedulingItemsByDay =
      pushToBucket it
        (match st.schedulingItemsByDay.find? (fun b => dayOf it.day == dayOf b.day) with
         | some _ => st.schedulingItemsByDay
         | none =>
           (st.schedulingItemsByDay ++
             [({ day := it.day, items := [] } : DayBucket)]).mergeSort bucketLE) := by
  cases hf : st.schedulingItemsByDay.find? (fun b => dayOf it.day == dayOf b.day) <;>
    simp [Sched.addItemCore, Sched.updateViewProperties, hf]

theorem pushToBucket_days (it : SchedulingItem) :
    ∀ bs : List DayBucket,
      (pushToBucket it bs).map (fun b => b.day) = bs.map (fun b => b.day)
  | [] => rfl
  | b :: bs => by
    rw [pushToBucket]
    cases hb : (dayOf b.day == dayOf it.day) with
    | true => simp
    | false => simpa using pushToBucket_days it bs

theorem pushToBucket_pairwise {it : SchedulingItem} {bs : List DayBucket}
    {R : Int → Int → Prop} (h : bs.Pairwise (fun a b => R a.day b.day)) :
    (pushToBucket it bs).Pairwise (fun a b => R a.day b.day) := by
  have h1 : ((bs.map (fun b => b.day)).Pairwise R) := by
    rw [List.pairwise_map]
    exact h
  rw [← pushToBucket_days it bs, List.pairwise_map] at h1
  exact h1

theorem lookupB_pushToBucket_ne (it : SchedulingItem) (k : Int) (hne : dayOf it.day ≠ k) :
    ∀ bs, lookupB (pushToBucket it bs) k = lookupB bs k
  | [] => rfl
  | b :: bs => by
    rw [pushToBucket]
    cases hb : (dayOf b.day == dayOf it.day) with
    | true =>
      have hb' : dayOf b.day = dayOf it.day := by simpa using hb
      have hbk : (dayOf b.day == k) = false := by
        simp only [beq_eq_false_iff_ne]
        omega
      simp [lookupB, hbk]
    | false =>
      cases hbk : (dayOf b.day == k) with
      | true => simp [lookupB, hbk]
      | false =>
        have ih := lookupB_pushToBucket_ne it k hne bs
        simp only [lookupB] at ih
        simp [lookupB, hbk, ih]

theorem lookupB_pushToBucket_eq (it : SchedulingItem) :
    ∀ (bs : List DayBucket) (b0 : DayBucket),
      bs.find? (fun b => dayOf it.day == dayOf b.day) = some b0 →
      lookupB (pushToBucket it bs) (dayOf it.day) = some (b0.items ++ [it]) ∧
      lookupB bs (dayOf it.day) = some b0.items
  | [], b0 => by intro h; cases h
  | b :: bs, b0 => by
    intro h
    cases hb : (dayOf it.day == dayOf b.day) with
    | true =>
      rw [@List.find?_cons_of_pos DayBucket (fun x => dayOf it.day == dayOf x.day)
        b bs hb] at h
      injection h with h
      subst h
      have hb' : (dayOf b.day == dayOf it.day) = true := by rw [beq_int_symm]; exact hb
      rw [pushToBucket, hb']
      constructor
      · simp [lookupB, hb']
      · simp [lookupB, hb']
    | false =>
      rw [@List.find?_cons_of_neg DayBucket (fun x => dayOf it.day == dayOf x.day)
        b bs (by simp [hb])] at h
      have hb' : (dayOf b.day == dayOf it.day) = false := by rw [beq_int_symm]; exact hb
      obtain ⟨ih1, ih2⟩ := lookupB_pushToBucket_eq it bs b0 h
      rw [pushToBucket, hb']
      simp only [Bool.false_eq_true, if_false]
      simp only [lookupB] at ih1 ih2
      constructor
      · simp [lookupB, hb', ih1]
      · simp [lookupB, hb', ih2]

theorem uniq_keys_pred {bs : List DayBucket}
    (hpw : bs.Pairwise (fun a b => dayOf a.day ≠ dayOf b.day))
    {p : DayBucket → Bool} {k : Int} (hp : ∀ x, p x = true → dayOf x.day = k) :
    ∀ x ∈ bs, ∀ y ∈ bs, p x = true → p y = true → x = y := by
  induction bs with
  | nil => intro x hx; cases hx
  | cons a l ih =>
    rw [List.pairwise_cons] at hpw
    obtain ⟨ha, hl⟩ := hpw
    intro x hx y hy hpx hpy
    rcases List.mem_cons.1 hx with hxa | hxl <;> rcases List.mem_cons.1 hy with hya | hyl
    · rw [hxa, hya]
    · exact absurd (by rw [hp x hpx, hp y hpy]) (hxa ▸ ha y hyl)
    · exact absurd (by rw [hp y hpy, hp x hpx]) (hya ▸ ha x hxl)
    · exact ih hl x hxl y hyl hpx hpy

theorem find?_eq_some_of_unique {α : Type} {p : α → Bool} {l : List α}
    (huniq : ∀ x ∈ l, ∀ y ∈ l, p x = true → p y = true → x = y)
    {b : α} (hmem : b ∈ l) (hpb : p b = true) :
    l.find? p = some b := by
  induction l with
  | nil => cases hmem
  | cons a l ih =>
    cases hpa : p a with
    | true =>
      rw [List.find?_cons_of_pos _ hpa]
      rw [huniq a (List.mem_cons_self ..) b hmem hpa hpb]
    | false =>
      rw [List.find?_cons_of_neg _ (by simp [hpa])]
      have hba : b ≠ a := fun hba => by rw [hba] at hpb; rw [hpb] at hpa; cases hpa
      have hmem' : b ∈ l := by
        rcases List.mem_cons.1 hmem with h | h
        · exact absurd h hba
        · exact h
      exact ih (fun x hx y hy => huniq x (List.mem_cons_of_mem _ hx) y
        (List.mem_cons_of_mem _ hy)) hmem'

theorem find?_perm_of_unique {α : Type} {p : α → Bool} {l₁ l₂ : List α}
    (hperm : l₁.Perm l₂)
    (huniq : ∀ x ∈ l₁, ∀ y ∈ l₁, p x = true → p y = true → x = y) :
    l₁.find? p = l₂.find? p := by
  cases h1 : l₁.find? p with
  | none =>
    rw [List.find?_eq_none] at h1
    symm
    rw [List.find?_eq_none]
    intro x hx
    exact h1 x (hperm.mem_iff.2 hx)
  | some b =>
    symm
    exact find?_eq_some_of_unique
      (fun x hx y hy => huniq x (hperm.mem_iff.2 hx) y (hperm.mem_iff.2 hy))
      (hperm.mem_iff.1 (List.mem_of_find?_eq_some h1)) (List.find?_some h1)

theorem find?_append_single_neg {α : Type} {p : α → Bool} {x : α} (hx : p x = false)
    (l : List α) : (l ++ [x]).find? p = l.find? p := by
  rw [List.find?_append]
  have h1 : ([x].find? p) = none := by
    rw [List.find?_cons, hx]
    simp
  rw [h1]
  cases l.find? p <;> rfl

theorem bucketLE_trans : ∀ (a b c : DayBucket), bucketLE a b → bucketLE b c → bucketLE a c := by
  intro a b c hab hbc
  simp only [bucketLE, decide_eq_true_eq] at hab hbc ⊢
  omega

theorem bucketLE_total : ∀ (a b : DayBucket), bucketLE a b || bucketLE b a := by
  intro a b
  simp only [bucketLE, Bool.or_eq_true, decide_eq_true_eq]
  omega

/-- Inserting a fresh day's bucket and re-sorting: the sorted collection is
a permutation of the appended one and is strictly sorted by calendar day
(strictness from the distinctness of the calendar keys). -/
theorem sorted_insert_facts {bs : List DayBucket} {it : SchedulingItem}
    (hD : bs.Pairwise (fun a b => dayOf a.day < dayOf b.day))
    (hnone : bs.find? (fun b => dayOf it.day == dayOf b.day) = none) :
    ((bs ++ [({ day := it.day, items := [] } : DayBucket)]).mergeSort bucketLE).Pairwise
        (fun a b => dayOf a.day < dayOf b.day) ∧
    ((bs ++ [({ day := it.day, items := [] } : DayBucket)]).mergeSort bucketLE).Perm
        (bs ++ [({ day := it.day, items := [] } : DayBucket)]) := by
  have hperm :=
    List.mergeSort_perm (bs ++ [({ day := it.day, items := [] } : DayBucket)]) bucketLE
  have hkeys : ∀ b ∈ bs, dayOf it.day ≠ dayOf b.day := by
    rw [List.find?_eq_none] at hnone
    intro b hb
    have h := hnone b hb
    simpa using h
  have hne_app : (bs ++ [({ day := it.day, items := [] } : DayBucket)]).Pairwise
      (fun a b => dayOf a.day ≠ dayOf b.day) := by
    rw [List.pairwise_append]
    refine ⟨hD.imp (fun h => by omega), by simp, ?_⟩
    intro a ha b hb
    rw [List.mem_singleton] at hb
    subst hb
    exact fun hc => hkeys a ha hc.symm
  have hne' : ((bs ++ [({ day := it.day, items := [] } : DayBucket)]).mergeSort
      bucketLE).Pairwise (fun a b => dayOf a.day ≠ dayOf b.day) :=
    (List.Perm.pairwise_iff (fun h => h.symm) hperm).2 hne_app
  have hsorted :=
    List.sorted_mergeSort bucketLE_trans bucketLE_total
      (bs ++ [({ day := it.day, items := [] } : DayBucket)])
  refine ⟨List.Pairwise.imp ?_ (hsorted.and hne'), hperm⟩
  intro a b hab
  obtain ⟨h1, h2⟩ := hab
  simp only [bucketLE, decide_eq_true_eq] at h1
  exact lt_of_le_of_ne (dayOf_mono h1) h2

/-- One `addItemCore` step: strict calendar sortedness of the buckets is
preserved, and the lookup function changes exactly at the item's calendar
day, where the item is appended at the end. -/
theorem addItemCore_step (it : SchedulingItem) (st : Sched)
    (hD : st.schedulingItemsByDay.Pairwise (fun a b => dayOf a.day < dayOf b.day)) :
    (st.addItemCore it).schedulingItemsByDay.Pairwise
        (fun a b => dayOf a.day < dayOf b.day) ∧
    ∀ k, lookupB (st.addItemCore it).schedulingItemsByDay k =
      if dayOf it.day = k then some ((lookupB st.schedulingItemsByDay k).getD [] ++ [it])
      else lookupB st.schedulingItemsByDay k := by
  rw [addItemCore_buckets]
  cases hf : st.schedulingItemsByDay.find? (fun b => dayOf it.day == dayOf b.day) with
  | some b0 =>
    refine ⟨pushToBucket_pairwise (R := fun x y => dayOf x < dayOf y) hD, ?_⟩
    intro k
    by_cases hk : dayOf it.day = k
    · subst hk
      obtain ⟨h1, h2⟩ := lookupB_pushToBucket_eq it _ b0 hf
      rw [h1, h2, if_pos rfl]
      rfl
    · rw [lookupB_pushToBucket_ne it k hk, if_neg hk]
  | none =>
    obtain ⟨hD', hperm⟩ := sorted_insert_facts hD hf
    have hne' := hD'.imp (fun h => ne_of_lt h)
    refine ⟨pushToBucket_pairwise (R := fun x y => dayOf x < dayOf y) hD', ?_⟩
    intro k
    by_cases hk : dayOf it.day = k
    · subst hk
      have hmem : ({ day := it.day, items := [] } : DayBucket) ∈
          (st.schedulingItemsByDay ++
            [({ day := it.day, items := [] } : DayBucket)]).mergeSort bucketLE :=
        hperm.mem_iff.2 (List.mem_append_right _ (List.mem_singleton.2 rfl))
      have hfind : ((st.schedulingItemsByDay ++
            [({ day := it.day, items := [] } : DayBucket)]).mergeSort bucketLE).find?
            (fun b => dayOf it.day == dayOf b.day) =
          some { day := it.day, items := [] } :=
        find?_eq_some_of_unique
          (uniq_keys_pred hne'
            (fun x hx => (show dayOf it.day = dayOf x.day by simpa using hx).symm))
          hmem (by simp)
      obtain ⟨h1, h2⟩ := lookupB_pushToBucket_eq it _ _ hfind
      rw [h1, if_pos rfl]
      have hnone2 : lookupB st.schedulingItemsByDay (dayOf it.day) = none := by
        rw [lookupB]
        have hfn : st.schedulingItemsByDay.find? (fun b => dayOf b.day == dayOf it.day) =
            none := by
          rw [List.find?_eq_none] at hf ⊢
          intro x hx hc
          exact hf x hx (by simpa using (show dayOf x.day = dayOf it.day by simpa using hc).symm)
        rw [hfn]
        rfl
      rw [hnone2]
      rfl
    · rw [lookupB_pushToBucket_ne it k hk, if_neg hk, lookupB, lookupB]
      have hu := uniq_keys_pred hne'
        (p := fun b => dayOf b.day == k) (fun x hx => by simpa using hx)
      rw [find?_perm_of_unique hperm hu,
        @find?_append_single_neg DayBucket (fun b => dayOf b.day == k)
          { day := it.day, items := [] } (beq_eq_false_iff_ne.2 hk)
          st.schedulingItemsByDay]

/-- Folding `addItemCore` over an item list preserves strict sortedness and
accumulates, per calendar day, exactly the items of that day in insertion
order. -/
theorem foldl_addItemCore_inv (L : List SchedulingItem) :
    ∀ (st : Sched) (g : Int → List SchedulingItem),
      st.schedulingItemsByDay.Pairwise (fun a b => dayOf a.day < dayOf b.day) →
      (∀ k, lookupB st.schedulingItemsByDay k = if g k = [] then none else some (g k)) →
      (L.foldl Sched.addItemCore st).schedulingItemsByDay.Pairwise
          (fun a b => dayOf a.day < dayOf b.day) ∧
      (∀ k, lookupB (L.foldl Sched.addItemCore st).schedulingItemsByDay k =
        if g k ++ L.filter (fun x => dayOf x.day == k) = [] then none
        else some (g k ++ L.filter (fun x => dayOf x.day == k))) := by
  induction L with
  | nil =>
    intro st g hD hR
    refine ⟨hD, ?_⟩
    intro k
    simpa using hR k
  | cons it L ih =>
    intro st g hD hR
    obtain ⟨hD2, hL2⟩ := addItemCore_step it st hD
    have hR2 : ∀ k, lookupB (st.addItemCore it).schedulingItemsByDay k =
        if (if dayOf it.day = k then g k ++ [it] else g k) = [] then none
        else some (if dayOf it.day = k then g k ++ [it] else g k) := by
      intro k
      rw [hL2 k]
      by_cases hk : dayOf it.day = k
      · rw [if_pos hk, if_pos hk, hR k]
        by_cases hg : g k = []
        · simp [hg]
        · simp [hg]
      · rw [if_neg hk, if_neg hk, hR k]
    obtain ⟨hD3, hR3⟩ := ih (st.addItemCore it) _ hD2 hR2
    refine ⟨by simpa using hD3, ?_⟩
    intro k
    have heq : (if dayOf it.day = k then g k ++ [it] else g k) ++
        L.filter (fun x => dayOf x.day == k) =
        g k ++ (it :: L).filter (fun x => dayOf x.day == k) := by
      rw [List.filter_cons]
      by_cases hk : dayOf it.day = k
      · rw [if_pos hk, if_pos (by simpa using hk)]
        simp
      · rw [if_neg hk, if_neg (by simpa using hk)]
    have h := hR3 k
    rw [heq] at h
    simpa using h

/-- C9. For every sequence of (validated) `addItem` calls on a fresh
scheduler, the bucket collection stays STRICTLY sorted ascending by
calendar day (in particular one bucket per calendar date), and
`calculateTheDaysItems(date)` returns exactly the items that were added for
that calendar date, in insertion order — and an absent result (JS
`undefined`) for a date with no items. -/
theorem claim9_buckets (L : List SchedulingItem) (date : Int) :
    ((L.foldl Sched.addItemCore (schedNew 0)).schedulingItemsByDay.Pairwise
        (fun a b => dayOf a.day < dayOf b.day)) ∧
    ((L.foldl Sched.addItemCore (schedNew 0)).calculateTheDaysItems date =
      if L.filter (fun x => dayOf x.day == dayOf date) = [] then none
      else some (L.filter (fun x => dayOf x.day == dayOf date))) := by
  have hbase : (schedNew 0).schedulingItemsByDay = [] := rfl
  obtain ⟨h1, h2⟩ := foldl_addItemCore_inv L (schedNew 0) (fun _ => [])
    (by rw [hbase]; exact List.Pairwise.nil)
    (by intro k; rw [hbase]; simp [lookupB])
  refine ⟨h1, ?_⟩
  rw [calculateTheDaysItems_eq_lookupB]
  simpa using h2 (dayOf date)

end AzosSched
